import Mathlib

/-!
Shallow embedding of the js-koll telemetry library (span/trace engine,
export pipeline stages, collector payload shaper) and proofs of the
specification's claims about it.

JavaScript strings are modelled as `List Char`; JS numbers appearing in
the telemetry records are modelled as `Int` (no claim depends on float
arithmetic); absent (`undefined`/missing) values are modelled as `Option`.
Randomness (`Math.random`) is modelled by an injected byte stream
`g : Nat -> Nat`, and the wall clock by injected millisecond values.
-/

set_option maxHeartbeats 1000000
set_option maxRecDepth 8000

namespace Koll

/-- The lowercase hex digit character for a value below 16, as produced
by JS `Number.toString(16)` (codepoint arithmetic: 48 is `0`, 87 + 10 is
`a`). -/
def hexDigitChar (n : Nat) : Char :=
  if n < 10 then Char.ofNat (48 + n) else Char.ofNat (87 + n)

/-- The sixteen lowercase hexadecimal digit characters. -/
def hexDigits : List Char :=
  (List.range 16).map hexDigitChar

/-- Models `b.toString(16).padStart(2, '0')` for a byte value `b < 256`:
exactly two lowercase hex characters. -/
def byteHex (b : Nat) : List Char :=
  [hexDigitChar (b / 16 % 16), hexDigitChar (b % 16)]

/-- Models one draw of `(Math.random() * 0xff) | 0` from the injected
random stream `g`: a value in `[0, 254]`. -/
def randByte (g : Nat → Nat) (i : Nat) : Nat :=
  g i % 255

/-- Embeds `id(length)` from `src/utils/data.ts`: concatenates `length`
random bytes, each rendered as two padded hex digits.  `off` is the index
into the injected random stream at which this call starts drawing. -/
def id (g : Nat → Nat) (off : Nat) (length : Nat) : List Char :=
  (List.range length).flatMap (fun i => byteHex (randByte g (off + i)))

/-- Embeds `millitime(time)` from `src/utils/data.ts`: the decimal
rendering of a millisecond clock value with six zeroes appended. -/
def millitime (t : Nat) : List Char :=
  (Nat.repr t).toList ++ "000000".toList

/-- Models `s.split(sep)` for a single-character separator, as used by
`makeParentObj` on traceparent strings: splits at every occurrence, so the
result is never empty and the empty string splits to one empty part. -/
def splitOnChar (sep : Char) : List Char → List (List Char)
  | [] => [[]]
  | c :: rest =>
    if c = sep then [] :: splitOnChar sep rest
    else
      match splitOnChar sep rest with
      | [] => [[c]]
      | h :: t => (c :: h) :: t

/-- Value of a single hex digit character, if it is one (either case, as
accepted by JS `parseInt(_, 16)`; codepoint ranges 48-57, 97-102 and
65-70). -/
def hexVal (c : Char) : Option Nat :=
  let n := c.toNat
  if 48 ≤ n ∧ n ≤ 57 then some (n - 48)
  else if 97 ≤ n ∧ n ≤ 102 then some (n - 87)
  else if 65 ≤ n ∧ n ≤ 70 then some (n - 55)
  else none

/-- Accumulating helper for `parseIntHex`. -/
def parseIntHexAux (acc : Nat) : List Char → Nat
  | [] => acc
  | c :: rest =>
    match hexVal c with
    | some v => parseIntHexAux (acc * 16 + v) rest
    | none => acc

/-- Models `parseInt(s, 16)` on the strings this code feeds it (hex
digit runs; leading whitespace/sign/`0x` forms do not occur here):
the value of the maximal leading hex-digit run, or `none` for `NaN`
when the string does not start with a hex digit. -/
def parseIntHex : List Char → Option Nat
  | [] => none
  | c :: rest =>
    match hexVal c with
    | some v => some (parseIntHexAux v rest)
    | none => none

/-- Models `parts[i] || '0'`: the part if present and non-empty
(empty strings are falsy), else `"0"`. -/
def partOrZero (o : Option (List Char)) : List Char :=
  match o with
  | some l => if l = [] then ['0'] else l
  | none => ['0']

end Koll

namespace Koll

/-- A runtime object read by `makeParentObj`'s structured branch: any
object with (possibly absent) `traceId` / `spanId` / `sample` properties.
Typed callers pass a `ParentSpanObject` (both ids present); the tracer's
`log` binding passes a partial log record here (see `tracerLog`). -/
structure DynParentObject where
  traceId : Option (List Char)
  spanId : Option (List Char)
  sample : Option Bool
deriving DecidableEq

/-- Embeds the `ParentSpan` type from `src/protocol.ts`:
a structured object, a traceparent string, or null/undefined. -/
inductive ParentSpan where
  | null : ParentSpan
  | str (s : List Char) : ParentSpan
  | obj (o : DynParentObject) : ParentSpan
deriving DecidableEq

/-- The object produced by `makeParentObj`.  `version` is `none` when
`parseInt` returned `NaN`; `traceId`/`spanId` are `none` when the
corresponding array index / property was undefined. -/
structure ParentObj where
  version : Option Nat
  traceId : Option (List Char)
  spanId : Option (List Char)
  sample : Bool
deriving DecidableEq

/-- Embeds `makeParentObj` from the context module: a string parent is
split on `'-'` (version, traceId, spanId, flags with bit 0 = sampled); a
structured parent is read field-wise with `!!span.sample`; an absent
parent yields `none`. -/
def makeParentObj : ParentSpan → Option ParentObj
  | .null => none
  | .str s =>
    let parts := splitOnChar '-' s
    let flags := (parseIntHex (partOrZero (parts.get? 3))).getD 0
    some
      { version := parseIntHex (partOrZero (parts.get? 0))
        traceId := parts.get? 1
        spanId := parts.get? 2
        sample := flags % 2 = 1 }
  | .obj o =>
    some
      { version := some 0
        traceId := o.traceId
        spanId := o.spanId
        sample := o.sample.getD false }

end Koll

namespace Koll

mutual

/-- Embeds the `AnyValue` type from `src/protocol.ts`: a record of
optional variants (string, bool, int, double, bytes, nested array,
nested key-value list).  JS numeric values are modelled as `Int`, and
the nested `Array<AnyValue>` / `Array<KeyValue>` are modelled by the
mutual list types below (so that the recursion of `getStringValue` is
structural). -/
inductive AnyValue where
  | mk (stringValue : Option (List Char)) (boolValue : Option Bool)
       (intValue : Option Int) (doubleValue : Option Int)
       (bytesValue : Option (List Char))
       (arrayValue : Option AnyValueList)
       (kvlistValue : Option AnyKVList) : AnyValue

inductive AnyValueList where
  | nil : AnyValueList
  | cons (v : AnyValue) (rest : AnyValueList) : AnyValueList

inductive AnyKVList where
  | nil : AnyKVList
  | cons (key : List Char) (v : AnyValue) (rest : AnyKVList) : AnyKVList

end

/-- The `stringValue` field of an `AnyValue`. -/
def AnyValue.stringValue : AnyValue → Option (List Char)
  | .mk s _ _ _ _ _ _ => s

/-- The `boolValue` field of an `AnyValue`. -/
def AnyValue.boolValue : AnyValue → Option Bool
  | .mk _ b _ _ _ _ _ => b

/-- The `intValue` field of an `AnyValue`. -/
def AnyValue.intValue : AnyValue → Option Int
  | .mk _ _ i _ _ _ _ => i

/-- The `doubleValue` field of an `AnyValue`. -/
def AnyValue.doubleValue : AnyValue → Option Int
  | .mk _ _ _ d _ _ _ => d

/-- The `bytesValue` field of an `AnyValue`. -/
def AnyValue.bytesValue : AnyValue → Option (List Char)
  | .mk _ _ _ _ b _ _ => b

/-- The `arrayValue` field of an `AnyValue`. -/
def AnyValue.arrayValue : AnyValue → Option AnyValueList
  | .mk _ _ _ _ _ a _ => a

/-- The `kvlistValue` field of an `AnyValue`. -/
def AnyValue.kvlistValue : AnyValue → Option AnyKVList
  | .mk _ _ _ _ _ _ kv => kv

/-- An `AnyValue` holding only a string (the shape this library builds for
log bodies and error attributes). -/
def strVal (s : List Char) : AnyValue :=
  .mk (some s) none none none none none none

/-- Embeds `KeyValue` from `src/protocol.ts`. -/
structure KeyValue where
  key : List Char
  value : AnyValue

/-- Embeds `InstrumentationScope` from `src/protocol.ts`: a bare name or
a record with name, optional version and optional attributes. -/
inductive InstrumentationScope where
  | str (name : List Char) : InstrumentationScope
  | obj (name : List Char) (version : Option (List Char))
        (attributes : Option (List KeyValue)) : InstrumentationScope

/-- Embeds `SpanStatus` from `src/protocol.ts`. -/
structure SpanStatus where
  message : List Char
  code : Int
deriving DecidableEq

/-- Embeds `SpanEvent` from `src/protocol.ts`. -/
structure SpanEvent where
  timeUnixNano : List Char
  name : List Char
  attributes : Option (List KeyValue)

/-- Embeds the `Span` record as this library constructs it in `makeSpan`
(the fields the code writes; protocol-level fields it never sets, such as
`traceState` and `links`, are omitted from the embedding). -/
structure Span where
  startTimeUnixNano : List Char
  endTimeUnixNano : List Char
  parentSpanId : Option (List Char)
  traceId : List Char
  sample : Bool
  spanId : List Char
  kind : Int
  name : List Char
  status : SpanStatus
  attributes : List KeyValue
  events : List SpanEvent

/-- A `Partial<Span>` overlay: fields present in the overlay replace the
corresponding fields of the base object under JS spread. -/
structure PartialSpan where
  startTimeUnixNano : Option (List Char) := none
  endTimeUnixNano : Option (List Char) := none
  parentSpanId : Option (Option (List Char)) := none
  traceId : Option (List Char) := none
  sample : Option Bool := none
  spanId : Option (List Char) := none
  kind : Option Int := none
  name : Option (List Char) := none
  status : Option SpanStatus := none
  attributes : Option (List KeyValue) := none
  events : Option (List SpanEvent) := none

/-- JS spread of a `Partial<Span>` over a base span: `\x7b ...base, ...details \x7d`. -/
def applyPartialSpan (base : Span) (d : PartialSpan) : Span :=
  { startTimeUnixNano := d.startTimeUnixNano.getD base.startTimeUnixNano
    endTimeUnixNano := d.endTimeUnixNano.getD base.endTimeUnixNano
    parentSpanId := d.parentSpanId.getD base.parentSpanId
    traceId := d.traceId.getD base.traceId
    sample := d.sample.getD base.sample
    spanId := d.spanId.getD base.spanId
    kind := d.kind.getD base.kind
    name := d.name.getD base.name
    status := d.status.getD base.status
    attributes := d.attributes.getD base.attributes
    events := d.events.getD base.events }

/-- Embeds `makeSpan(parent, details?)` from the context module.  `g` is
the injected random byte stream and `tms` the injected `Date.now()`
millisecond value.  The fresh trace id (when needed) draws bytes `0..15`;
the fresh span id draws the next 8 bytes of the stream (bytes `0..7`
when no fresh trace id was generated). -/
def makeSpan (g : Nat → Nat) (tms : Nat) (parent : ParentSpan)
    (details : PartialSpan := {}) : Span :=
  let parentObj := makeParentObj parent
  let pTrace : Option (List Char) := parentObj.bind (·.traceId)
  let timestamp := millitime tms
  let spanIdOff : Nat := if pTrace = none then 16 else 0
  applyPartialSpan
    { startTimeUnixNano := timestamp
      endTimeUnixNano := timestamp
      parentSpanId := parentObj.bind (·.spanId)
      traceId := pTrace.getD (id g 0 16)
      sample := (parentObj.map (·.sample)).getD true
      spanId := id g spanIdOff 8
      kind := 1
      name := []
      status := { message := "OK".toList, code := 1 }
      attributes := []
      events := [] }
    details

/-- Embeds the `traceparent()` method of a running span:
`"00-" + traceId + "-" + spanId + "-" + Number(sample).toString(16)`.
Note `Number(true).toString(16)` is the single character `"1"` and
`Number(false).toString(16)` is `"0"`. -/
def traceparent (s : Span) : List Char :=
  "00-".toList ++ s.traceId ++ "-".toList ++ s.spanId ++ "-".toList ++
    (if s.sample then "1".toList else "0".toList)

/-- Embeds the `mark(name, attributes?)` method of a running span:
appends a timestamped event (`tms` is the injected `Date.now()` value). -/
def mark (s : Span) (tms : Nat) (name : List Char)
    (attributes : Option (List KeyValue)) : Span :=
  { s with events := s.events ++ [{ name := name, timeUnixNano := millitime tms, attributes := attributes }] }

end Koll

namespace Koll

/-- Embeds the `LogRecord` fields this library reads and writes
(`timeUnixNano`, `severityNumber`, `body`, `attributes`, `traceId`,
`spanId`).  The engine always populates `body`, and the payload shaper
dereferences it unconditionally, so it is modelled as required. -/
structure LogRecord where
  timeUnixNano : List Char
  severityNumber : Option Int
  body : AnyValue
  attributes : Option (List KeyValue)
  traceId : Option (List Char)
  spanId : Option (List Char)

/-- A `Partial<LogRecord>` overlay (and the object the tracer's buggy
`log` binding feeds to `makeParentObj`): present fields replace the base
record's fields under JS spread. -/
structure PartialLogRecord where
  timeUnixNano : Option (List Char) := none
  severityNumber : Option Int := none
  body : Option AnyValue := none
  attributes : Option (List KeyValue) := none
  traceId : Option (List Char) := none
  spanId : Option (List Char) := none

/-- JS spread of a `Partial<LogRecord>` over a base record:
`\x7b ...base, ...overlay \x7d`. -/
def applyPartialLog (base : LogRecord) (d : PartialLogRecord) : LogRecord :=
  { timeUnixNano := d.timeUnixNano.getD base.timeUnixNano
    severityNumber := d.severityNumber.orElse (fun _ => base.severityNumber)
    body := d.body.getD base.body
    attributes := d.attributes.orElse (fun _ => base.attributes)
    traceId := d.traceId.orElse (fun _ => base.traceId)
    spanId := d.spanId.orElse (fun _ => base.spanId) }

/-- The value of a gauge data point (`asDouble` / `asInt`). -/
structure PointValue where
  asDouble : Option Int
  asInt : Option Int

/-- A gauge data point. -/
structure DataPoint where
  value : Option PointValue
  timeUnixNano : List Char

/-- The `data.gauge` payload of a metric. -/
structure Gauge where
  dataPoints : List DataPoint

/-- The `data` field of a metric; non-gauge kinds (sum, histogram,
summary) exist only as unused typing in the source and are modelled by
`gauge := none`. -/
structure MetricData where
  gauge : Option Gauge

/-- Embeds the `Metric` fields this library reads and writes. -/
structure Metric where
  name : List Char
  unit : Option (List Char)
  data : MetricData

/-- Embeds `ExportItem` from `src/configure.ts`: the unit flowing through
the pipeline, tagged with a scope and optionally carrying a span, a log
record, a metric and a free-form context. -/
structure ExportItem where
  scope : InstrumentationScope
  context : Option AnyValue := none
  span : Option Span := none
  log : Option LogRecord := none
  metric : Option Metric := none

/-- A JS `Error` object as this library reads it: `name`, `message` and
an optional `stack` string. -/
structure JSError where
  name : List Char
  message : List Char
  stack : Option (List Char)
deriving DecidableEq

/-- Models `String(error)` (default `Error.prototype.toString`):
`name` when the message is empty, else `name + ": " + message`. -/
def jsErrorToString (e : JSError) : List Char :=
  if e.message = [] then e.name else e.name ++ ": ".toList ++ e.message

/-- Models `String(error.stack ?? error.message ?? error)` (in the model
`message` is always a string, so the third fallback is unreachable). -/
def stackOrMessage (e : JSError) : List Char :=
  e.stack.getD e.message

/-- Embeds `errorAttributes(error)` from the context module: the
kind/message/type/stacktrace attribute list attached to recorded errors. -/
def errorAttributes (e : JSError) : List KeyValue :=
  [ { key := "kind".toList, value := strVal "exception".toList }
  , { key := "message".toList, value := strVal (jsErrorToString e) }
  , { key := "type".toList, value := strVal e.name }
  , { key := "stacktrace".toList, value := strVal (stackOrMessage e) } ]

/-- Embeds the standalone `log(exporter, scope, severity, message,
parent, log?)` function: returns the single `ExportItem` the call passes
to the exporter (`tms` is the injected `Date.now()` value). -/
def logFn (scope : InstrumentationScope) (severity : Int) (message : List Char)
    (parent : ParentSpan) (overlay : Option PartialLogRecord) (tms : Nat) : ExportItem :=
  let parentObj := makeParentObj parent
  let base : LogRecord :=
    { severityNumber := some severity
      timeUnixNano := millitime tms
      body := strVal message
      attributes := none
      traceId := parentObj.bind (·.traceId)
      spanId := parentObj.bind (·.spanId) }
  { scope := scope
    log := some (applyPartialLog base (overlay.getD {})) }

/-- Embeds the standalone `measurement(exporter, scope, name, unit,
value, context?)` function: the single gauge `ExportItem` it exports. -/
def measurementFn (scope : InstrumentationScope) (name : List Char)
    (unit : List Char) (value : Int) (context : Option AnyValue) (tms : Nat) : ExportItem :=
  let pv : PointValue := { asDouble := some value, asInt := none }
  let dp : DataPoint := { value := some pv, timeUnixNano := millitime tms }
  { scope := scope
    context := context
    metric := some
      { name := name
        unit := some unit
        data := { gauge := some { dataPoints := [dp] } } } }

/-- Embeds the standalone `error(exporter, scope, parent, error)`
function: logs at severity 20 with the error's stack as message and
`errorAttributes` as the record overlay. -/
def errorFn (scope : InstrumentationScope) (parent : ParentSpan)
    (e : JSError) (tms : Nat) : ExportItem :=
  logFn scope 20 (stackOrMessage e) parent
    (some { attributes := some (errorAttributes e) }) tms

/-- Models the runtime value the tracer's `log` binding feeds to
`makeParentObj`: the optional `record` argument, whose `traceId` /
`spanId` properties are read and whose absent `sample` property reads as
undefined. -/
def parentOfRecord : Option PartialLogRecord → ParentSpan
  | none => .null
  | some r => .obj { traceId := r.traceId, spanId := r.spanId, sample := none }

/-- Embeds the `log` binding of `tracer(exportFn, parent?)`.  The source
reads `log(exporter, scope, severity, message, record)`: the optional
`record` argument is passed in the `parent` position of the standalone
`log` function and no record overlay is passed, so the tracer's fixed
`parent` is ignored here and the record's fields are dropped. -/
def tracerLog (_parent : ParentSpan) (scope : InstrumentationScope)
    (severity : Int) (message : List Char)
    (record : Option PartialLogRecord) (tms : Nat) : ExportItem :=
  logFn scope severity message (parentOfRecord record) none tms

end Koll

namespace Koll

/-- The observable outcome of one `runSpan` call: the value returned or
error re-raised, the final state of the span object, and the export
calls issued by the `finally` block. -/
structure RunResult (T : Type) where
  result : Except JSError T
  span : Span
  exported : List ExportItem

/-- Embeds `runSpan(exporter, scope, parent, fn)` from the context
module.  The body is modelled as a function from the freshly created
span to its mutated state together with a normal or thrown outcome
(covering every mutation the body performs through the exposed span
object, including `cancel()`, which sets `sample := false`).
`hasExporter` models whether an export function was configured; `t0`,
`tCatch` and `tEnd` are the injected `Date.now()` values for span
creation, the catch block's `mark('error', ...)` and the `finally`
block's end-time stamp. -/
def runSpan {T : Type} (hasExporter : Bool) (g : Nat → Nat)
    (t0 tCatch tEnd : Nat) (scope : InstrumentationScope) (parent : ParentSpan)
    (body : Span → Span × Except JSError T) : RunResult T :=
  let s0 := makeSpan g t0 parent
  let stepped := body s0
  let s1 := stepped.1
  let s2 :=
    match stepped.2 with
    | .ok _ => s1
    | .error e =>
      mark { s1 with status := { message := "ERROR".toList, code := 2 } }
        tCatch "error".toList (some (errorAttributes e))
  let s3 := { s2 with endTimeUnixNano := millitime tEnd }
  { result := stepped.2
    span := s3
    exported := if hasExporter && s3.sample then [{ scope := scope, span := some s3 }] else [] }

end Koll

namespace Koll

/-- Options of the pausable exporter (`src/exporters/pausable.ts`). -/
structure PausableOptions where
  startPaused : Option Bool := none
  maxQueueSize : Option Nat := none

/-- State owned by one pausable stage instance.  The stage never
inspects the queued items, so the model is polymorphic in the item
type. -/
structure PState (α : Type) where
  paused : Bool
  pending : List α

/-- Initial state of `pausableExporter`:
`paused = (options?.startPaused === true)`, empty queue. -/
def pausableInit (opts : PausableOptions) : PState α :=
  { paused := opts.startPaused = some true, pending := [] }

/-- Embeds one call of the pausable stage's exporter function: while
paused, append and trim the queue to the newest `maxQueueSize` items
(default 100000); while unpaused, forward the call unchanged.  Returns
the new state and the calls made to the inner exporter. -/
def pausableSubmit (opts : PausableOptions) (s : PState α)
    (events : List α) : PState α × List (List α) :=
  if s.paused then
    let p1 := s.pending ++ events
    let maxQ := opts.maxQueueSize.getD 100000
    let p2 := if maxQ < p1.length then p1.drop (p1.length - maxQ) else p1
    ({ paused := true, pending := p2 }, [])
  else
    (s, [events])

/-- Embeds `toggle(on?)`: set or flip the paused flag; when the new
state is unpaused and the queue is non-empty, forward the whole queue to
the inner exporter as one call and clear it. -/
def pausableToggle (_opts : PausableOptions) (s : PState α)
    (onArg : Option Bool) : PState α × List (List α) :=
  let paused := onArg.getD (!s.paused)
  if !paused && !s.pending.isEmpty then
    ({ paused := paused, pending := [] }, [s.pending])
  else
    ({ paused := paused, pending := s.pending }, [])

/-- One interaction with a pausable stage. -/
inductive PausableOp (α : Type) where
  | submit (events : List α) : PausableOp α
  | toggle (onArg : Option Bool) : PausableOp α

/-- Run a sequence of interactions against a pausable stage, collecting
the calls made to the inner exporter in order. -/
def pausableRun (opts : PausableOptions) (s : PState α) :
    List (PausableOp α) → PState α × List (List α)
  | [] => (s, [])
  | op :: rest =>
    let step :=
      match op with
      | .submit events => pausableSubmit opts s events
      | .toggle onArg => pausableToggle opts s onArg
    let tail := pausableRun opts step.1 rest
    (tail.1, step.2 ++ tail.2)

end Koll

namespace Koll

/-- Options of the batching exporter (second module of
`src/exporters/faro.ts`'s file group). -/
structure BatchingOptions where
  interval : Option Nat := none
  batchingInterval : Option Nat := none
  maxBatchSize : Option Nat := none
  maxQueueSize : Option Nat := none

/-- State owned by one batching stage instance: the pending queue and
whether a timer is armed.  Item-type polymorphic, as the stage never
inspects items. -/
structure BState (α : Type) where
  pending : List α
  timerArmed : Bool

/-- Initial state of `batchingExporter`: empty queue, no timer. -/
def batchingInit : BState α := { pending := [], timerArmed := false }

/-- Embeds one call of the batching stage's exporter function: append
the items; if the queue now exceeds `maxQueueSize ?? 100000`, drop the
oldest `pending.length - (maxQueueSize ?? 1000)` items (note the
source's inconsistent 1000 fallback in the trim arithmetic); arm the
timer if it is not armed. -/
def batchingSubmit (opts : BatchingOptions) (s : BState α)
    (events : List α) : BState α :=
  let p1 := s.pending ++ events
  let p2 :=
    if opts.maxQueueSize.getD 100000 < p1.length then
      p1.drop (p1.length - opts.maxQueueSize.getD 1000)
    else p1
  { pending := p2, timerArmed := true }

/-- Embeds one firing of `processBatch`: remove the oldest
`maxBatchSize ?? 35` items, re-arm the timer if items remain, and
forward the removed batch to the inner exporter when it is non-empty.
Returns the new state and the optional inner-exporter call. -/
def processBatch (opts : BatchingOptions) (s : BState α) :
    BState α × Option (List α) :=
  let maxB := opts.maxBatchSize.getD 35
  let batch := s.pending.take maxB
  let rest := s.pending.drop maxB
  ({ pending := rest, timerArmed := !rest.isEmpty },
   if batch.isEmpty then none else some batch)

/-- Fires `processBatch` as long as the timer is re-armed, collecting
the inner-exporter calls.  The fuel argument (instantiated with the
queue length) makes the recursion structural; it only runs out when
`maxBatchSize = 0`, in which case the real stage re-arms forever and
never emits. -/
def drainAux (opts : BatchingOptions) : Nat → List α → List (List α)
  | _, [] => []
  | 0, _ :: _ => []
  | fuel + 1, x :: rest =>
    let maxB := opts.maxBatchSize.getD 35
    let batch := (x :: rest).take maxB
    let remaining := (x :: rest).drop maxB
    if batch.isEmpty then drainAux opts fuel remaining
    else batch :: drainAux opts fuel remaining

/-- The inner-exporter calls produced by letting every armed timer of a
batching stage fire, with no further submissions. -/
def drainCalls (opts : BatchingOptions) (s : BState α) : List (List α) :=
  if s.timerArmed then drainAux opts s.pending.length s.pending else []

/-- Fold a sequence of submission calls into a batching stage. -/
def batchingSubmitAll (opts : BatchingOptions) (s : BState α) :
    List (List α) → BState α
  | [] => s
  | events :: rest => batchingSubmitAll opts (batchingSubmit opts s events) rest

end Koll

namespace Koll

/-- Embeds `makeScope(scope)` from the faro module: scope name plus
version defaulting (falsy version strings fall back to `"1.0.0"`). -/
def makeScope : InstrumentationScope → (List Char) × (List Char)
  | .str name => (name, "1.0.0".toList)
  | .obj name version _ =>
    (name, match version with
           | some v => if v = [] then "1.0.0".toList else v
           | none => "1.0.0".toList)

/-- Models JS `Array.prototype.join(sep)`. -/
def joinSep (sep : List Char) : List (List Char) → List Char
  | [] => []
  | [p] => p
  | p :: q :: rest => p ++ sep ++ joinSep sep (q :: rest)

/-- Models `String(n)` for the `Int`-modelled JS numbers. -/
def intRepr (n : Int) : List Char := (Int.repr n).toList

mutual

/-- Embeds `getStringValue(anyValue)` from the faro module: arrays join
their rendered elements with `;`, key-value lists render `key=value`
pairs joined with `;`, and scalars pick the first set field among
bool, double, bytes, int, string (empty string if all unset). -/
def getStringValue : AnyValue → List Char
  | .mk sv bv iv dv byv arr kv =>
    match arr with
    | some vs => joinSep ";".toList (getStringValueListAux vs)
    | none =>
      match kv with
      | some kvs => joinSep ";".toList (getStringValueKVAux kvs)
      | none =>
        match bv with
        | some b => if b then "true".toList else "false".toList
        | none =>
          match dv with
          | some d => intRepr d
          | none =>
            match byv with
            | some bs => bs
            | none =>
              match iv with
              | some i => intRepr i
              | none => sv.getD []

/-- `arrayValue.map(getStringValue)` over the mutual list type. -/
def getStringValueListAux : AnyValueList → List (List Char)
  | .nil => []
  | .cons v rest => getStringValue v :: getStringValueListAux rest

/-- Renders each key-value entry of a `kvlistValue` as `key=value`. -/
def getStringValueKVAux : AnyKVList → List (List Char)
  | .nil => []
  | .cons k v rest => (k ++ "=".toList ++ getStringValue v) :: getStringValueKVAux rest

end

end Koll

namespace Koll

/-- Embeds `getFaroLogLevel(severity)` from the faro module: the severity
band name for a severity number. -/
def getFaroLogLevel (severity : Int) : List Char :=
  if severity < 5 then "trace".toList
  else if severity < 9 then "debug".toList
  else if severity < 13 then "info".toList
  else if severity < 17 then "warning".toList
  else if severity < 21 then "error".toList
  else "fatal".toList

/-- Accumulating helper for `parseDecNat` (codepoint 48 is the digit
`0`). -/
def parseDecNatAux (acc : Nat) : List Char → Nat
  | [] => acc
  | c :: rest => parseDecNatAux (acc * 10 + (c.toNat - 48)) rest

/-- Models `BigInt(s)` on the digit strings this library produces for
`timeUnixNano` values. -/
def parseDecNat (s : List Char) : Nat :=
  parseDecNatAux 0 s

/-- The microsecond value `BigInt(timeUnixNano) / 1000n` computed by the
faro module for record timestamps. The subsequent float division by 1000
and ISO-8601 rendering through `Date` are not modelled (no claim
concerns the rendered timestamp text). -/
def faroTimestampMicros (t : List Char) : Nat :=
  parseDecNat t / 1000

/-- The flat attribute mapping
`Object.fromEntries(log.attributes.map(a => [a.key, getStringValue(a.value)]) ?? [])`,
kept as the mapped entry list. -/
def logContext (lg : LogRecord) : List ((List Char) × (List Char)) :=
  (lg.attributes.getD []).map (fun attr => (attr.key, getStringValue attr.value))

/-- Property lookup on the `Object.fromEntries` result: with duplicate
keys the later entry wins. -/
def ctxLookup (ctx : List ((List Char) × (List Char))) (k : List Char) :
    Option (List Char) :=
  (ctx.reverse.find? (fun p => p.1 == k)).map (·.2)

/-- The `trace` linkage object built for a log-derived record:
present only when `log.traceId` is truthy (non-empty). -/
structure FaroTraceRef where
  trace_id : List Char
  span_id : Option (List Char)
deriving DecidableEq

/-- Models `item.log.traceId ? \x7b trace_id, span_id \x7d : undefined`. -/
def logTrace (lg : LogRecord) : Option FaroTraceRef :=
  match lg.traceId with
  | some t => if t = [] then none else some { trace_id := t, span_id := lg.spanId }
  | none => none

/-- A faro plain log record as built by `collect` (the ISO timestamp is
kept as its microsecond value, see `faroTimestampMicros`). -/
structure FaroLog where
  timestampMicros : Nat
  message : Option (List Char)
  level : List Char
  context : List ((List Char) × (List Char))
  trace : Option FaroTraceRef

/-- A faro event record as built by `collect`. -/
structure FaroEvent where
  timestampMicros : Nat
  name : List Char
  attributes : List ((List Char) × (List Char))
  domain : List Char
  trace : Option FaroTraceRef

/-- A faro exception record as built by `collect`.  `stacktraceSrc` is
the raw text handed to `parseStackTrace`
(`context.stacktrace ?? log.body.stringValue ?? ''`); the frame parser
itself is not modelled (no claim concerns stack frames). -/
structure FaroException where
  timestampMicros : Nat
  type : Option (List Char)
  value : Option (List Char)
  trace : Option FaroTraceRef
  stacktraceSrc : List Char

/-- A per-scope faro measurement group.  A value is `none` when
`Number(asDouble ?? asInt)` evaluated to `NaN` (both fields unset). -/
structure FaroMeasurement where
  type : List Char
  values : List ((List Char) × Option Int)

/-- A per-scope faro span group. -/
structure FaroSpans where
  scopeName : List Char
  scopeVersion : List Char
  spans : List Span

/-- Accumulator of `collect`'s loop: the two keyed groups keep their
JS-object insertion order as association lists. -/
structure CollectAcc where
  traces : List ((List Char) × FaroSpans) := []
  logs : List FaroLog := []
  measurements : List ((List Char) × FaroMeasurement) := []
  exceptions : List FaroException := []
  events : List FaroEvent := []

/-- `tracesBatch[name] ??= \x7b scope, spans: [] \x7d` followed by a push of the
span onto the group. -/
def addSpanToGroups (groups : List ((List Char) × FaroSpans))
    (name ver : List Char) (sp : Span) : List ((List Char) × FaroSpans) :=
  match groups with
  | [] => [(name, { scopeName := name, scopeVersion := ver, spans := [sp] })]
  | (k, grp) :: rest =>
    if k = name then (k, { grp with spans := grp.spans ++ [sp] }) :: rest
    else (k, grp) :: addSpanToGroups rest name ver sp

/-- `measurementsBatch[name] ??= \x7b type: name, values: \x7b\x7d \x7d`. -/
def ensureMeasGroup (groups : List ((List Char) × FaroMeasurement))
    (name : List Char) : List ((List Char) × FaroMeasurement) :=
  match groups with
  | [] => [(name, { type := name, values := [] })]
  | (k, g) :: rest =>
    if k = name then (k, g) :: rest
    else (k, g) :: ensureMeasGroup rest name

/-- `scope.values[key] = v`: overwrite in place or append. -/
def setValues (vals : List ((List Char) × Option Int)) (key : List Char)
    (v : Option Int) : List ((List Char) × Option Int) :=
  match vals with
  | [] => [(key, v)]
  | (k, v') :: rest =>
    if k = key then (key, v) :: rest
    else (k, v') :: setValues rest key v

/-- Applies `scope.values[key] = v` to the group named `name`. -/
def setMeasValue (groups : List ((List Char) × FaroMeasurement))
    (name key : List Char) (v : Option Int) :
    List ((List Char) × FaroMeasurement) :=
  groups.map (fun p =>
    if p.1 = name then (p.1, { p.2 with values := setValues p.2.values key v })
    else p)

/-- One iteration of `collect`'s classification loop.  The span branch
and the exception/event log branches end in `continue`; the plain-log
branch does not, so execution falls through to the metric branch (the
`otherwise` comment in the source notwithstanding). -/
def collectStep (acc : CollectAcc) (item : ExportItem) : CollectAcc :=
  match item.span with
  | some sp =>
    let sc := makeScope item.scope
    { acc with traces := addSpanToGroups acc.traces sc.1 sc.2 sp }
  | none =>
    let afterLog : CollectAcc × Bool :=
      match item.log with
      | none => (acc, false)
      | some lg =>
        let context := logContext lg
        let ts := faroTimestampMicros lg.timeUnixNano
        let trace := logTrace lg
        if ctxLookup context "kind".toList = some "exception".toList then
          ({ acc with exceptions := acc.exceptions ++
              [{ timestampMicros := ts
                 type := ctxLookup context "type".toList
                 value := lg.body.stringValue
                 trace := trace
                 stacktraceSrc :=
                   ((ctxLookup context "stacktrace".toList).orElse
                     (fun _ => lg.body.stringValue)).getD [] }] }, true)
        else if ctxLookup context "kind".toList = some "event".toList then
          ({ acc with events := acc.events ++
              [{ timestampMicros := ts
                 name := getStringValue lg.body
                 attributes := context
                 domain := (makeScope item.scope).1
                 trace := trace }] }, true)
        else
          ({ acc with logs := acc.logs ++
              [{ timestampMicros := ts
                 message := lg.body.stringValue
                 level := getFaroLogLevel (lg.severityNumber.getD 0)
                 context := context
                 trace := trace }] }, false)
    if afterLog.2 then afterLog.1
    else
      match item.metric with
      | some m =>
        match m.data.gauge with
        | some gg =>
          let name := (makeScope item.scope).1
          let grps := ensureMeasGroup afterLog.1.measurements name
          -- `metric.name` is a required string, so the `key !== undefined`
          -- guard of the source always passes in the model
          let value := gg.dataPoints.head?.bind (·.value)
          match value with
          | some pv =>
            let v := pv.asDouble.orElse (fun _ => pv.asInt)
            { afterLog.1 with measurements := setMeasValue grps name m.name v }
          | none => { afterLog.1 with measurements := grps }
        | none => afterLog.1
      | none => afterLog.1

/-- The grouped output of `collect(batch)`. -/
structure CollectResult where
  traces : List FaroSpans
  logs : List FaroLog
  measurements : List FaroMeasurement
  exceptions : List FaroException
  events : List FaroEvent

/-- Embeds `collect(batch)` from the faro module.  `Object.values` of
the keyed groups preserves insertion order. -/
def collect (batch : List ExportItem) : CollectResult :=
  let acc := batch.foldl collectStep {}
  { traces := acc.traces.map (·.2)
    logs := acc.logs
    measurements := acc.measurements.map (·.2)
    exceptions := acc.exceptions
    events := acc.events }

end Koll

namespace Koll

/-- Failing input for claim C1: a fixed parent context carrying trace
and span ids. -/
def c1Parent : ParentSpan :=
  .obj { traceId := some "0af7651916cd43dd8448eb211c80319c".toList
         spanId := some "b7ad6b7169203331".toList
         sample := some true }

/-- Failing input for claim C1: a log-record customization argument. -/
def c1Record : PartialLogRecord :=
  { attributes := some [{ key := "k".toList, value := strVal "v".toList }] }

/-- Claim C1: FALSIFIED BY THE CODE.  The spec promises that every
method of `tracer(exportFn, parent?)` is pre-bound to the fixed parent
`p`, so `tracer(e, p).log(scope, severity, message, record)` should emit
a log record with `p`'s traceId/spanId and with the `record` fields
applied.  The source's binding reads
`log(exporter, scope, severity, message, record)`, passing `record` in
the `parent` position and dropping the overlay entirely: at the failing
input the emitted record carries no traceId, no spanId and no
attributes, although the fixed parent defines both ids and the record
argument supplies attributes. -/
theorem tracerLog_ignores_parent_and_record :
    (tracerLog c1Parent (.str "app".toList) 9 "hi".toList (some c1Record) 0).log.map
        (·.traceId) = some none ∧
    (tracerLog c1Parent (.str "app".toList) 9 "hi".toList (some c1Record) 0).log.map
        (·.spanId) = some none ∧
    (tracerLog c1Parent (.str "app".toList) 9 "hi".toList (some c1Record) 0).log.map
        (·.attributes) = some none ∧
    (makeParentObj c1Parent).map (·.traceId) =
      some (some "0af7651916cd43dd8448eb211c80319c".toList) := by
  refine ⟨rfl, rfl, rfl, rfl⟩

/-- A concrete running span for claim C2: sampled, well-formed hex ids. -/
def c2SpanOn : Span :=
  { startTimeUnixNano := millitime 0, endTimeUnixNano := millitime 0
    parentSpanId := none
    traceId := "0af7651916cd43dd8448eb211c80319c".toList
    sample := true
    spanId := "b7ad6b7169203331".toList
    kind := 1, name := []
    status := { message := "OK".toList, code := 1 }
    attributes := [], events := [] }

/-- The same span with the sample flag cleared. -/
def c2SpanOff : Span := { c2SpanOn with sample := false }

/-- Claim C2: FALSIFIED BY THE CODE.  `traceparent()` is documented as a
standard (W3C trace context) string `"00-<traceId>-<spanId>-<01|00>"`
with a two-hex-digit flags field, but the implementation renders the
flags as `Number(sample).toString(16)`, i.e. the single digit `"1"` or
`"0"`. -/
theorem traceparent_single_digit_flags :
    traceparent c2SpanOn =
      "00-0af7651916cd43dd8448eb211c80319c-b7ad6b7169203331-1".toList ∧
    traceparent c2SpanOn ≠
      "00-0af7651916cd43dd8448eb211c80319c-b7ad6b7169203331-01".toList ∧
    traceparent c2SpanOff =
      "00-0af7651916cd43dd8448eb211c80319c-b7ad6b7169203331-0".toList ∧
    traceparent c2SpanOff ≠
      "00-0af7651916cd43dd8448eb211c80319c-b7ad6b7169203331-00".toList := by
  refine ⟨by decide, by decide, by decide, by decide⟩

/-- Helper for claim C4: with default options, any single submission of
100001 items into a fresh batching stage leaves exactly 1000 items
queued (trim trigger `maxQueueSize ?? 100000`, trim target
`maxQueueSize ?? 1000`). -/
lemma batchingSubmit_default_overflow_len (l : List Nat) (hlen : l.length = 100001) :
    ((batchingSubmit ({} : BatchingOptions) batchingInit l).pending).length = 1000 := by
  simp [batchingSubmit, batchingInit, hlen]

/-- Claim C4: FALSIFIED BY THE CODE.  With all-default options the
batching stage triggers trimming when the queue exceeds
`maxQueueSize ?? 100000`, but the trim arithmetic uses the fallback
`maxQueueSize ?? 1000`: one submission of 100001 items leaves 1000
items queued, not the 100000 the spec states. -/
theorem batching_default_trim_keeps_1000 :
    ((batchingSubmit ({} : BatchingOptions) batchingInit
        (List.replicate 100001 (0 : Nat))).pending).length = 1000 ∧
    (1000 : Nat) ≠ 100000 := by
  refine ⟨batchingSubmit_default_overflow_len _ (List.length_replicate _ _), by decide⟩

/-- Failing input for claim C5: a single export item that carries both a
plain log (severity 9, no attributes, so neither exception nor event)
and a gauge metric. -/
def c5DualItem : ExportItem :=
  { scope := .str "s".toList
    log := some { timeUnixNano := "0".toList, severityNumber := some 9,
                  body := strVal "hi".toList, attributes := none,
                  traceId := none, spanId := none }
    metric := some { name := "m".toList, unit := none,
                     data := { gauge := some { dataPoints :=
                       [{ value := some { asDouble := some 1, asInt := none },
                          timeUnixNano := "0".toList }] } } } }

/-- Claim C5: FALSIFIED BY THE CODE.  Classification in `collect` is
meant to be first-match-wins (span, else exception/event/log, else
metric — the source comments say `otherwise`), but the plain-log branch
does not `continue`: a single item carrying both a plain log and a gauge
metric is recorded in two output categories, a log record and a
per-scope measurement. -/
theorem collect_dual_item_two_categories :
    (collect [c5DualItem]).logs.length = 1 ∧
    (collect [c5DualItem]).measurements.length = 1 := by
  refine ⟨rfl, rfl⟩

end Koll

namespace Koll

/-- Splitting a separator-free string yields that single part. -/
lemma splitOnChar_no_sep (sep : Char) (a : List Char) (ha : sep ∉ a) :
    splitOnChar sep a = [a] := by
  induction a with
  | nil => rfl
  | cons c rest ih =>
    have hc : c ≠ sep := by
      intro h
      exact ha (h ▸ List.mem_cons_self c rest)
    have hrest : sep ∉ rest := fun h => ha (List.mem_cons_of_mem c h)
    simp [splitOnChar, hc, ih hrest]

/-- Splitting `a ++ sep :: b` with `sep` not in `a` peels off `a` as the
first part. -/
lemma splitOnChar_append_sep (sep : Char) (a b : List Char) (ha : sep ∉ a) :
    splitOnChar sep (a ++ sep :: b) = a :: splitOnChar sep b := by
  induction a with
  | nil => simp [splitOnChar]
  | cons c rest ih =>
    have hc : c ≠ sep := by
      intro h
      exact ha (h ▸ List.mem_cons_self c rest)
    have hrest : sep ∉ rest := fun h => ha (List.mem_cons_of_mem c h)
    have hrec := ih hrest
    simp only [List.cons_append, splitOnChar, if_neg hc, List.append_eq]
    rw [hrec]

/-- Splitting the output of `traceparent` recovers the four fields. -/
lemma splitOnChar_traceparent (s : Span)
    (htrace : '-' ∉ s.traceId) (hspan : '-' ∉ s.spanId) :
    splitOnChar '-' (traceparent s) =
      [['0', '0'], s.traceId, s.spanId, if s.sample then ['1'] else ['0']] := by
  have h00 : ('-' : Char) ∉ (['0', '0'] : List Char) := by decide
  have hf : ('-' : Char) ∉ (if s.sample then ['1'] else ['0']) := by
    cases hs : s.sample <;> simp
  have htp : traceparent s =
      ['0', '0'] ++ '-' :: (s.traceId ++ '-' :: (s.spanId ++ '-' ::
        (if s.sample then ['1'] else ['0']))) := by
    cases hs : s.sample <;> simp [traceparent, hs]
  rw [htp, splitOnChar_append_sep _ _ _ h00, splitOnChar_append_sep _ _ _ htrace,
    splitOnChar_append_sep _ _ _ hspan, splitOnChar_no_sep _ _ hf]

/-- Claim C3: CONFIRMED.  For every running span whose ids are free of
the `'-'` separator (all ids this library generates are hex strings),
parsing `traceparent()`'s output with `makeParentObj` yields a parent
object whose traceId, spanId and sample flag match the span. -/
theorem traceparent_roundtrip (s : Span)
    (htrace : '-' ∉ s.traceId) (hspan : '-' ∉ s.spanId) :
    ∃ po, makeParentObj (.str (traceparent s)) = some po ∧
      po.traceId = some s.traceId ∧ po.spanId = some s.spanId ∧
      po.sample = s.sample := by
  refine ⟨{ version := some 0, traceId := some s.traceId,
            spanId := some s.spanId, sample := s.sample }, ?_, rfl, rfl, rfl⟩
  have hsplit := splitOnChar_traceparent s htrace hspan
  have hmk : makeParentObj (.str (traceparent s)) = some
      { version := parseIntHex (partOrZero ((splitOnChar '-' (traceparent s)).get? 0))
        traceId := (splitOnChar '-' (traceparent s)).get? 1
        spanId := (splitOnChar '-' (traceparent s)).get? 2
        sample :=
          (parseIntHex (partOrZero ((splitOnChar '-' (traceparent s)).get? 3))).getD 0
            % 2 = 1 } := rfl
  rw [hmk, hsplit]
  cases hs : s.sample <;>
    simp [hs, partOrZero, parseIntHex, parseIntHexAux, hexVal, List.get?]

/-- A concrete sampled span for the C3 witness. -/
def c3Span : Span :=
  { startTimeUnixNano := millitime 0, endTimeUnixNano := millitime 0
    parentSpanId := none
    traceId := "4bf92f3577b34da6a3ce929d0e0e4736".toList
    sample := true
    spanId := "00f067aa0ba902b7".toList
    kind := 1, name := []
    status := { message := "OK".toList, code := 1 }
    attributes := [], events := [] }

/-- Witness for claim C3 at a concrete sampled span. -/
theorem traceparent_roundtrip_witness :
    ∃ po, makeParentObj (.str (traceparent c3Span)) = some po ∧
      po.traceId = some c3Span.traceId ∧ po.spanId = some c3Span.spanId ∧
      po.sample = c3Span.sample :=
  traceparent_roundtrip c3Span (by decide) (by decide)

end Koll

namespace Koll

/-- Claim C6: CONFIRMED.  Whenever the body of a run throws an error
`e`, `runSpan` re-raises that identical error, sets the span status to
code 2 / message ERROR, and appends exactly one event named `error`
(timestamped at the catch, carrying `errorAttributes e`) after the
events the body left on the span.  Holds with or without a configured
exporter. -/
theorem runSpan_error_path {T : Type} (hasExporter : Bool) (g : Nat → Nat)
    (t0 t1 t2 : Nat) (scope : InstrumentationScope) (parent : ParentSpan)
    (body : Span → Span × Except JSError T) (e : JSError)
    (herr : (body (makeSpan g t0 parent)).2 = .error e) :
    (runSpan hasExporter g t0 t1 t2 scope parent body).result = Except.error e ∧
    (runSpan hasExporter g t0 t1 t2 scope parent body).span.status =
      { message := "ERROR".toList, code := 2 } ∧
    (runSpan hasExporter g t0 t1 t2 scope parent body).span.events =
      (body (makeSpan g t0 parent)).1.events ++
        [{ name := "error".toList, timeUnixNano := millitime t1,
           attributes := some (errorAttributes e) }] := by
  refine ⟨?_, ?_, ?_⟩ <;> simp [runSpan, herr, mark]

/-- A concrete thrown error for the C6 witness. -/
def c6Error : JSError :=
  { name := "TypeError".toList, message := "boom".toList,
    stack := some "TypeError: boom".toList }

/-- A body for the C6 witness that throws `c6Error` without touching the
span. -/
def c6Body : Span → Span × Except JSError Nat :=
  fun s => (s, .error c6Error)

/-- Witness for claim C6 at a concrete throwing body. -/
theorem runSpan_error_path_witness :
    (runSpan true (fun _ => 0) 0 1 2 (.str "app".toList) .null c6Body).result =
      Except.error c6Error ∧
    (runSpan true (fun _ => 0) 0 1 2 (.str "app".toList) .null c6Body).span.status =
      { message := "ERROR".toList, code := 2 } ∧
    (runSpan true (fun _ => 0) 0 1 2 (.str "app".toList) .null c6Body).span.events =
      (c6Body (makeSpan (fun _ => 0) 0 .null)).1.events ++
        [{ name := "error".toList, timeUnixNano := millitime 1,
           attributes := some (errorAttributes c6Error) }] :=
  runSpan_error_path true (fun _ => 0) 0 1 2 (.str "app".toList) .null c6Body
    c6Error rfl

/-- Claim C7: CONFIRMED.  With a configured export function, if the
span's sample flag is false when the body finishes (`cancel()` clears it
and it was not set back), the `finally` block does not pass the
completed span to the export function — whether the body returned
normally or threw. -/
theorem runSpan_cancel_suppresses_export {T : Type} (g : Nat → Nat)
    (t0 t1 t2 : Nat) (scope : InstrumentationScope) (parent : ParentSpan)
    (body : Span → Span × Except JSError T)
    (hcancel : (body (makeSpan g t0 parent)).1.sample = false) :
    (runSpan true g t0 t1 t2 scope parent body).exported = [] := by
  cases h2 : (body (makeSpan g t0 parent)).2 <;>
    simp [runSpan, h2, mark, hcancel]

/-- A body for the C7 witness that cancels the span and returns
normally. -/
def c7Body : Span → Span × Except JSError Nat :=
  fun s => ({ s with sample := false }, .ok 7)

/-- Witness for claim C7 at a concrete cancelling body. -/
theorem runSpan_cancel_suppresses_export_witness :
    (runSpan true (fun _ => 0) 0 1 2 (.str "app".toList) .null c7Body).exported = [] :=
  runSpan_cancel_suppresses_export (fun _ => 0) 0 1 2 (.str "app".toList) .null
    c7Body rfl

end Koll

namespace Koll

/-- Every character `hexDigitChar` produces on a value below 16 is a
hex digit. -/
lemma hexDigitChar_mem (n : Nat) (h : n < 16) : hexDigitChar n ∈ hexDigits := by
  simp only [hexDigits, List.mem_map]
  exact ⟨n, List.mem_range.mpr h, rfl⟩

/-- `id` produces two characters per requested byte. -/
lemma id_length (g : Nat → Nat) (off n : Nat) : (id g off n).length = 2 * n := by
  induction n with
  | zero => rfl
  | succ m ih =>
    unfold id at ih ⊢
    rw [List.range_succ, List.flatMap_append, List.length_append, ih]
    simp [byteHex]
    omega

/-- Every character `id` produces is a hex digit. -/
lemma id_mem_hexDigits (g : Nat → Nat) (off n : Nat) :
    ∀ c ∈ id g off n, c ∈ hexDigits := by
  intro c hc
  unfold id at hc
  rw [List.mem_flatMap] at hc
  obtain ⟨i, _, hci⟩ := hc
  simp only [byteHex, List.mem_cons, List.mem_singleton] at hci
  rcases hci with h | h | h
  · exact h ▸ hexDigitChar_mem _ (Nat.mod_lt _ (by omega))
  · exact h ▸ hexDigitChar_mem _ (Nat.mod_lt _ (by omega))
  · exact absurd h (by simp)

/-- The parent-derived traceId read by `makeSpan`
(`makeParentObj(parent)?.traceId`). -/
def parentTraceIdOf (p : ParentSpan) : Option (List Char) :=
  (makeParentObj p).bind (·.traceId)

/-- The parent-derived spanId read by `makeSpan`
(`makeParentObj(parent)?.spanId`). -/
def parentSpanIdOf (p : ParentSpan) : Option (List Char) :=
  (makeParentObj p).bind (·.spanId)

/-- Counterexample input for claim C8: a structured parent whose
`traceId` is the empty string. -/
def c8Parent : ParentSpan :=
  .obj { traceId := some [], spanId := some "00f067aa0ba902b7".toList,
         sample := some true }

/-- Claim C8 counterexample: the claim says that when the parent is
present with an empty traceId the span gets a freshly generated
32-hex-character traceId; the code's `parentObj?.traceId ?? id(16)`
keeps the empty string (an empty string is not nullish), so the
resulting traceId is `""`, not a 32-character id. -/
theorem makeSpan_empty_traceId_cex :
    (makeSpan (fun _ => 0) 0 c8Parent).traceId = [] ∧
    (makeSpan (fun _ => 0) 0 c8Parent).traceId.length ≠ 32 := by
  refine ⟨rfl, by decide⟩

/-- Claim C8 (amended): CONFIRMED.  `makeSpan(P)` (no details overlay)
gives the span exactly `P`'s traceId whenever the parent object defines
one — including an empty string — and a freshly generated
32-hex-character id exactly when the parent is absent or defines no
traceId (e.g. a string parent with no second `-`-separated segment);
the spanId is always the freshly generated `id(8)` value (16 hex
characters), never copied from `P`, hence distinct from `P`'s spanId
whenever the generator's output differs from it. -/
theorem makeSpan_trace_span_ids (g : Nat → Nat) (t : Nat) (parent : ParentSpan) :
    (makeSpan g t parent).traceId = (parentTraceIdOf parent).getD (id g 0 16) ∧
    (parentTraceIdOf parent = none →
      (makeSpan g t parent).traceId.length = 32 ∧
      ∀ c ∈ (makeSpan g t parent).traceId, c ∈ hexDigits) ∧
    (makeSpan g t parent).spanId =
      id g (if parentTraceIdOf parent = none then 16 else 0) 8 ∧
    (makeSpan g t parent).spanId.length = 16 ∧
    (∀ c ∈ (makeSpan g t parent).spanId, c ∈ hexDigits) ∧
    (∀ ps, parentSpanIdOf parent = some ps →
      id g (if parentTraceIdOf parent = none then 16 else 0) 8 ≠ ps →
      (makeSpan g t parent).spanId ≠ ps) := by
  have htr : (makeSpan g t parent).traceId =
      (parentTraceIdOf parent).getD (id g 0 16) := by
    simp [makeSpan, applyPartialSpan, parentTraceIdOf]
  have hsp : (makeSpan g t parent).spanId =
      id g (if parentTraceIdOf parent = none then 16 else 0) 8 := by
    simp [makeSpan, applyPartialSpan, parentTraceIdOf]
  refine ⟨htr, ?_, hsp, ?_, ?_, ?_⟩
  · intro hnone
    rw [htr, hnone]
    exact ⟨id_length g 0 16, id_mem_hexDigits g 0 16⟩
  · rw [hsp]; exact id_length g _ 8
  · rw [hsp]; exact id_mem_hexDigits g _ 8
  · intro ps _ hne
    rw [hsp]; exact hne

/-- A structured parent for the C8 witness. -/
def c8WitParent : ParentSpan :=
  .obj { traceId := some "4bf92f3577b34da6a3ce929d0e0e4736".toList,
         spanId := some "00f067aa0ba902b7".toList, sample := some true }

/-- Witness for claim C8 (amended) at a concrete structured parent:
the traceId is inherited and the generated spanId differs from the
parent's. -/
theorem makeSpan_trace_span_ids_witness :
    (makeSpan (fun _ => 0) 0 c8WitParent).traceId =
      "4bf92f3577b34da6a3ce929d0e0e4736".toList ∧
    (makeSpan (fun _ => 0) 0 c8WitParent).spanId ≠ "00f067aa0ba902b7".toList := by
  have h := makeSpan_trace_span_ids (fun _ => 0) 0 c8WitParent
  exact ⟨by rw [h.1]; rfl,
    h.2.2.2.2.2 "00f067aa0ba902b7".toList rfl (by decide)⟩

end Koll

namespace Koll

/-- One pausable-stage step preserves the invariant that an unpaused
stage has an empty queue. -/
lemma pausableStep_preserves {α : Type} (opts : PausableOptions)
    (s : PState α) (hs : s.paused = false → s.pending = [])
    (op : PausableOp α) :
    (match op with
     | .submit events => (pausableSubmit opts s events).1
     | .toggle onArg => (pausableToggle opts s onArg).1).paused = false →
    (match op with
     | .submit events => (pausableSubmit opts s events).1
     | .toggle onArg => (pausableToggle opts s onArg).1).pending = [] := by
  cases op with
  | submit events =>
    by_cases hp : s.paused
    · simp [pausableSubmit, hp]
    · simp only [Bool.not_eq_true] at hp
      simp [pausableSubmit, hp, hs hp]
  | toggle onArg =>
    intro hp
    cases hpa : onArg.getD (!s.paused) with
    | true => simp [pausableToggle, hpa] at hp
    | false =>
      cases hpe : s.pending.isEmpty with
      | true => simp [pausableToggle, hpa, hpe, List.isEmpty_iff.mp hpe]
      | false => simp [pausableToggle, hpa, hpe]

/-- A pausable run from any invariant-satisfying state lands in an
invariant-satisfying state. -/
lemma pausableRun_preserves {α : Type} (opts : PausableOptions)
    (ops : List (PausableOp α)) :
    ∀ s : PState α, (s.paused = false → s.pending = []) →
      ((pausableRun opts s ops).1.paused = false →
        (pausableRun opts s ops).1.pending = []) := by
  induction ops with
  | nil => intro s hs; simpa [pausableRun] using hs
  | cons op rest ih =>
    intro s hs
    have hstep := pausableStep_preserves opts s hs op
    cases op with
    | submit events => exact ih _ hstep
    | toggle onArg => exact ih _ hstep

/-- Claim C10: CONFIRMED.  Starting from a fresh pausable stage, after
any sequence of submissions and toggles: (1) an unpaused stage has an
empty queue; (2) a submission to an unpaused stage leaves the state
untouched and forwards exactly that call to the inner exporter; (3) a
toggle whose resulting state is unpaused leaves an empty queue, having
forwarded the whole prior queue as one in-order call (or nothing when it
was empty). -/
theorem pausable_unpaused_invariant {α : Type} (opts : PausableOptions)
    (ops : List (PausableOp α)) :
    ((pausableRun opts (pausableInit opts) ops).1.paused = false →
      (pausableRun opts (pausableInit opts) ops).1.pending = []) ∧
    (∀ evs, (pausableRun opts (pausableInit opts) ops).1.paused = false →
      pausableSubmit opts (pausableRun opts (pausableInit opts) ops).1 evs =
        ((pausableRun opts (pausableInit opts) ops).1, [evs])) ∧
    (∀ b, (pausableToggle opts (pausableRun opts (pausableInit opts) ops).1 b).1.paused
        = false →
      (pausableToggle opts (pausableRun opts (pausableInit opts) ops).1 b).1.pending
          = [] ∧
        (pausableToggle opts (pausableRun opts (pausableInit opts) ops).1 b).2 =
          if (pausableRun opts (pausableInit opts) ops).1.pending.isEmpty then []
          else [(pausableRun opts (pausableInit opts) ops).1.pending]) := by
  have hinv := pausableRun_preserves opts ops (pausableInit opts)
    (by intro _; rfl)
  refine ⟨hinv, ?_, ?_⟩
  · intro evs hp
    simp [pausableSubmit, hp]
  · intro b
    set s := (pausableRun opts (pausableInit opts) ops).1 with hsdef
    intro hp
    cases hpa : b.getD (!s.paused) with
    | true => simp [pausableToggle, hpa] at hp
    | false =>
      cases hpe : s.pending.isEmpty with
      | true =>
        refine ⟨?_, ?_⟩ <;>
          simp [pausableToggle, hpa, hpe, List.isEmpty_iff.mp hpe]
      | false =>
        refine ⟨?_, ?_⟩ <;> simp [pausableToggle, hpa, hpe]

/-- Concrete options for the C10 witness: start paused. -/
def c10Opts : PausableOptions := { startPaused := some true }

/-- Concrete interaction sequence for the C10 witness: two submissions
while paused, then unpause. -/
def c10Ops : List (PausableOp Nat) :=
  [.submit [1, 2], .submit [3], .toggle (some false)]

/-- Witness for claim C10: after buffering while paused and toggling to
unpaused, the queue is empty. -/
theorem pausable_unpaused_invariant_witness :
    (pausableRun c10Opts (pausableInit c10Opts) c10Ops).1.pending = [] :=
  (pausable_unpaused_invariant c10Opts c10Ops).1 (by rfl)

end Koll

namespace Koll

/-- The batching options of claim C9: `maxBatchSize = 35`, everything
else defaulted. -/
def opts35 : BatchingOptions := { maxBatchSize := some 35 }

/-- An empty queue drains to no calls regardless of remaining fuel. -/
lemma drainAux_nil {α : Type} (opts : BatchingOptions) (fuel : Nat) :
    drainAux opts fuel ([] : List α) = [] := by
  cases fuel <;> rfl

/-- Unfolding one firing of the drain loop for `opts35` on a non-empty
queue. -/
lemma drainAux_cons35 {α : Type} (f : Nat) (x : α) (rest : List α) :
    drainAux opts35 (f + 1) (x :: rest) =
      (List.take 35 (x :: rest)) :: drainAux opts35 f (List.drop 35 (x :: rest)) := by
  have hne : (List.take (opts35.maxBatchSize.getD 35) (x :: rest)).isEmpty = false := rfl
  simp only [drainAux, hne, Bool.false_eq_true, if_false]
  rfl

/-- Chunking behaviour of the drain loop for `maxBatchSize = 35`: the
calls concatenate back to the queue, there are exactly ceil(n/35) of
them, each carries at most 35 items, and the final call carries
`n mod 35` items (or 35 when 35 divides n). -/
lemma drainAux_spec {α : Type} :
    ∀ (fuel : Nat) (l : List α), l.length ≤ fuel →
      (drainAux opts35 fuel l).flatten = l ∧
      (drainAux opts35 fuel l).length = (l.length + 34) / 35 ∧
      (∀ c ∈ drainAux opts35 fuel l, c.length ≤ 35) ∧
      (l ≠ [] → drainAux opts35 fuel l ≠ []) ∧
      (l ≠ [] → ((drainAux opts35 fuel l).getLastD []).length =
        if l.length % 35 = 0 then 35 else l.length % 35) := by
  intro fuel
  induction fuel with
  | zero =>
    intro l hl
    have hnil : l = [] := List.eq_nil_of_length_eq_zero (Nat.le_zero.mp hl)
    subst hnil
    refine ⟨?_, ?_, ?_, ?_, ?_⟩
    · rw [drainAux_nil]; rfl
    · rw [drainAux_nil]; simp
    · intro c hc; rw [drainAux_nil] at hc; cases hc
    · intro h; exact absurd rfl h
    · intro h; exact absurd rfl h
  | succ f ih =>
    intro l hl
    cases l with
    | nil =>
      refine ⟨?_, ?_, ?_, ?_, ?_⟩
      · rw [drainAux_nil]; rfl
      · rw [drainAux_nil]; simp
      · intro c hc; rw [drainAux_nil] at hc; cases hc
      · intro h; exact absurd rfl h
      · intro h; exact absurd rfl h
    | cons x rest =>
      have hlen : (x :: rest).length = rest.length + 1 := rfl
      have hdroplen : (List.drop 35 (x :: rest)).length = (x :: rest).length - 35 :=
        List.length_drop 35 (x :: rest)
      have hrle : (List.drop 35 (x :: rest)).length ≤ f := by
        rw [hdroplen]
        omega
      obtain ⟨ihj, ihl, ihc, ihne, ihlast⟩ := ih (List.drop 35 (x :: rest)) hrle
      rw [drainAux_cons35]
      have htakelen : (List.take 35 (x :: rest)).length = min 35 (x :: rest).length :=
        List.length_take 35 (x :: rest)
      refine ⟨?_, ?_, ?_, ?_, ?_⟩
      · rw [List.flatten_cons, ihj, List.take_append_drop]
      · rw [List.length_cons, ihl, hdroplen]
        omega
      · intro c hc
        rcases List.mem_cons.mp hc with h | h
        · rw [h, htakelen]; omega
        · exact ihc c h
      · intro _
        exact List.cons_ne_nil _ _
      · intro _
        rw [List.getLastD_cons]
        by_cases hr : List.drop 35 (x :: rest) = []
        · have hle35 : (x :: rest).length ≤ 35 := by
            have hz := hdroplen
            rw [hr] at hz
            simp only [List.length_nil] at hz
            omega
          rw [hr, drainAux_nil]
          have hgd : (List.getLastD ([] : List (List α)) (List.take 35 (x :: rest))) =
              List.take 35 (x :: rest) := rfl
          rw [hgd, htakelen]
          have hpos : 1 ≤ (x :: rest).length := by rw [hlen]; omega
          by_cases hmod : (x :: rest).length % 35 = 0 <;> simp only [hmod, if_pos,
            if_neg, ite_true, ite_false] <;> omega
        · have hd' := ihne hr
          have h1 : (drainAux opts35 f (List.drop 35 (x :: rest))).getLastD
              (List.take 35 (x :: rest)) =
              (drainAux opts35 f (List.drop 35 (x :: rest))).getLastD [] := by
            rw [List.getLastD_eq_getLast?, List.getLastD_eq_getLast?]
            obtain ⟨y, hy⟩ := Option.isSome_iff_exists.mp (List.getLast?_isSome.mpr hd')
            rw [hy]
            rfl
          have hgt : ¬ (x :: rest).length ≤ 35 := by
            intro hle
            exact hr (List.drop_eq_nil_of_le hle)
          have hmodeq : ((x :: rest).length - 35) % 35 = (x :: rest).length % 35 := by
            omega
          rw [h1, ihlast hr, hdroplen, hmodeq]

/-- Folding submissions whose total stays within the queue bound leaves
the concatenation queued (no trim fires) with the timer armed iff at
least one submission call happened. -/
lemma batchingSubmitAll_no_overflow {α : Type} :
    ∀ (submits : List (List α)) (s : BState α),
      s.pending.length + submits.flatten.length ≤ 100000 →
      (batchingSubmitAll opts35 s submits).pending = s.pending ++ submits.flatten ∧
      (batchingSubmitAll opts35 s submits).timerArmed =
        (s.timerArmed || !submits.isEmpty) := by
  intro submits
  induction submits with
  | nil =>
    intro s _
    simp [batchingSubmitAll]
  | cons events rest ih =>
    intro s htot
    have hflat : (events :: rest).flatten = events ++ rest.flatten := rfl
    rw [hflat, List.length_append] at htot
    have hnotrim : ¬ (opts35.maxQueueSize.getD 100000 < (s.pending ++ events).length) := by
      rw [List.length_append]
      show ¬ (100000 < _)
      omega
    have hsub : batchingSubmit opts35 s events =
        { pending := s.pending ++ events, timerArmed := true } := by
      simp only [batchingSubmit, if_neg hnotrim]
    have hnext := ih { pending := s.pending ++ events, timerArmed := true }
      (by simp only [List.length_append]; omega)
    rw [batchingSubmitAll, hsub]
    refine ⟨?_, ?_⟩
    · rw [hnext.1, hflat, List.append_assoc]
    · rw [hnext.2]
      simp

/-- Claim C9 counterexample: the claim, quantifying over batching stages
with `maxBatchSize = 35`, fails once the pending queue overflows and
items are dropped.  With `maxQueueSize = 50`, submitting 106 items keeps
only the newest 50, so draining makes 2 inner calls, not
ceil(106/35) = 4. -/
theorem batching_overflow_cex :
    (drainCalls { maxBatchSize := some 35, maxQueueSize := some 50 }
      (batchingSubmitAll { maxBatchSize := some 35, maxQueueSize := some 50 }
        batchingInit [List.replicate 106 (0 : Nat)])).length = 2 ∧
    (106 + 34) / 35 = 4 ∧ (2 : Nat) ≠ 4 := by
  refine ⟨by decide, by decide, by decide⟩

/-- Claim C9 (amended): CONFIRMED.  For a batching stage with
`maxBatchSize = 35` (other options defaulted), submitting N items in any
sequence of calls — provided N does not exceed the queue bound of
100000, so no items are dropped — and letting every armed timer fire
results in exactly ceil(N/35) inner-exporter calls, each of at most 35
items, concatenating back to the submitted items in order, the last call
carrying N mod 35 items (or 35 when 35 divides N). -/
theorem batching_chunking {α : Type} (submits : List (List α))
    (htotal : submits.flatten.length ≤ 100000) :
    (drainCalls opts35 (batchingSubmitAll opts35 batchingInit submits)).flatten =
      submits.flatten ∧
    (drainCalls opts35 (batchingSubmitAll opts35 batchingInit submits)).length =
      (submits.flatten.length + 34) / 35 ∧
    (∀ c ∈ drainCalls opts35 (batchingSubmitAll opts35 batchingInit submits),
      c.length ≤ 35) ∧
    (submits.flatten ≠ [] →
      ((drainCalls opts35 (batchingSubmitAll opts35 batchingInit submits)).getLastD
          []).length =
        if submits.flatten.length % 35 = 0 then 35
        else submits.flatten.length % 35) := by
  cases submits with
  | nil =>
    have hcalls : drainCalls opts35
        (batchingSubmitAll opts35 batchingInit ([] : List (List α))) = [] := rfl
    refine ⟨?_, ?_, ?_, ?_⟩
    · rw [hcalls]
    · rw [hcalls]; simp
    · intro c hc; rw [hcalls] at hc; cases hc
    · intro h; exact absurd rfl h
  | cons ev rest =>
    obtain ⟨hpend, harmed⟩ := batchingSubmitAll_no_overflow (ev :: rest) batchingInit
      (by simpa [batchingInit] using htotal)
    have harmT : (batchingSubmitAll opts35 batchingInit (ev :: rest)).timerArmed
        = true := by
      rw [harmed]; simp [batchingInit]
    have hpend' : (batchingSubmitAll opts35 batchingInit (ev :: rest)).pending =
        (ev :: rest).flatten := by
      rw [hpend]; simp [batchingInit]
    have hcalls : drainCalls opts35 (batchingSubmitAll opts35 batchingInit (ev :: rest)) =
        drainAux opts35 (ev :: rest).flatten.length (ev :: rest).flatten := by
      simp [drainCalls, harmT, hpend']
    obtain ⟨hj, hlen2, hchunk, _, hlast⟩ :=
      drainAux_spec (ev :: rest).flatten.length (ev :: rest).flatten (Nat.le_refl _)
    exact ⟨by rw [hcalls, hj], by rw [hcalls, hlen2], by rw [hcalls]; exact hchunk,
      fun h => by rw [hcalls]; exact hlast h⟩

/-- Witness for claim C9 (amended) at a concrete three-item submission. -/
theorem batching_chunking_witness :
    (drainCalls opts35 (batchingSubmitAll opts35 batchingInit
        [[(1 : Nat), 2, 3]])).flatten = [[(1 : Nat), 2, 3]].flatten ∧
    (drainCalls opts35 (batchingSubmitAll opts35 batchingInit
        [[(1 : Nat), 2, 3]])).length = ([[(1 : Nat), 2, 3]].flatten.length + 34) / 35 ∧
    (∀ c ∈ drainCalls opts35 (batchingSubmitAll opts35 batchingInit
        [[(1 : Nat), 2, 3]]), c.length ≤ 35) ∧
    ([[(1 : Nat), 2, 3]].flatten ≠ [] →
      ((drainCalls opts35 (batchingSubmitAll opts35 batchingInit
          [[(1 : Nat), 2, 3]])).getLastD []).length =
        if [[(1 : Nat), 2, 3]].flatten.length % 35 = 0 then 35
        else [[(1 : Nat), 2, 3]].flatten.length % 35) :=
  batching_chunking [[(1 : Nat), 2, 3]] (by decide)

end Koll
